import Mathlib

/-!
Shallow embedding of the source-location resolver of the `bug-buster`
repository: the data model of `src/workflows/stacktrace/model.py` and the
`fetch_files` / `_resolve_file_in_github` logic of
`src/workflows/stacktrace/flow.py`.

Remote GitHub access (`gh_client.get_repo`, `get_git_tree`, `get_contents`,
`get_commit`) is modelled by a `GithubRepo` value describing one repository at
one commit: its non-recursive top-level tree listing, the result of fetching
contents at any path, and the commit's canonical SHA (used only to build the
permalink URL; `get_commit` itself is modelled as total since the session's
commit is fixed and valid).  Every remote tree or content fetch performed
during resolution is recorded in a `List RemoteOp` trace so that the
"at most one fetch" invariants can be stated as counting properties.

The external method-locator collaborator (`_refine_method`, an LLM call) is a
function parameter of type `Locator`; returning `none` models the collaborator
raising an exception.  An uncaught Python exception escaping the step is
modelled as `Except.error ()`.
-/

namespace BugBuster

/-- `FileOffset` from `model.py`: start line (inclusive) and end line
(exclusive).  The source field `end` is a Lean keyword and is rendered
`end_`. -/
structure FileOffset where
  start : Int
  end_ : Int
deriving Repr, DecidableEq

/-- `StackFrame` from `model.py`: one relevant frame extracted from the
stack trace. -/
structure StackFrame where
  reason : String
  path : String
  method : String
  lineno : Int
  is_third_party : Bool
deriving Repr, DecidableEq

/-- `FileId` from `model.py`. -/
structure FileId where
  path : String
  repo : String
  commit : String
  url : String
  language : String
deriving Repr, DecidableEq

/-- `SnippetOffset` from `model.py`: a `FileOffset` plus an optional
originating stack-frame index (`frame_id`), set from `enumerate` so it is a
natural number when present. -/
structure SnippetOffset extends FileOffset where
  frame_id : Option Nat := none
deriving Repr, DecidableEq

/-- `ResolvedFile` from `model.py`. -/
structure ResolvedFile where
  file_id : FileId
  content : String
  snippet_offsets : List SnippetOffset
deriving Repr, DecidableEq

/-- Result of `repo.get_contents(path, ref=commit)`:
`fileContent text` models a single `ContentFile` whose
`decoded_content.decode('utf-8')` is `text`; `listing texts` models the list
returned when the path denotes a directory, with `texts` the decoded contents
of its entries in order; `ghError` models a raised `GithubException`
(including 404 "not found"). -/
inductive ContentResult where
  | fileContent (text : String)
  | listing (texts : List String)
  | ghError
deriving Repr, DecidableEq

/-- One repository at one commit, as seen through the GitHub API surface the
resolver uses. -/
structure GithubRepo where
  /-- names (`item.path`) of the entries of the non-recursive top-level
  tree, directories and files alike. -/
  treeEntries : List String
  /-- canonical SHA of the session commit, `r.get_commit(commit).sha`. -/
  commitSha : String
  /-- behaviour of `get_contents` per path; paths absent from the list
  raise (404). -/
  contents : List (String × ContentResult)
deriving Repr, DecidableEq

/-- `r.get_contents(path, ref=commit)`: lookup with a `GithubException`
default. -/
def getContents (r : GithubRepo) (path : String) : ContentResult :=
  (r.contents.lookup path).getD ContentResult.ghError

/-- A remote fetch performed against the repository API: the non-recursive
top-level tree listing (`get_git_tree(commit, recursive=False)`) or a content
fetch at a path (`get_contents(path, ref=commit)`). -/
inductive RemoteOp where
  | treeFetch
  | contentFetch (path : String)
deriving Repr, DecidableEq

/-- The fixed classpath-style language set of `flow.py`:
`language in {"java", "scala", "kotlin"}`. -/
def classpathLangs : List String := ["java", "scala", "kotlin"]

/-- Python `str.split` on a single-character separator, over the character
list: splitting the empty string gives `[""]`, every separator occurrence
starts a new piece. -/
def splitChar (sep : Char) : List Char → List String
  | [] => [""]
  | c :: cs =>
    let rest := splitChar sep cs
    if c = sep then "" :: rest
    else
      match rest with
      | [] => [String.mk [c]]
      | s :: ss => String.mk (c :: s.data) :: ss

/-- Python `path.split('/')`. -/
def pySplitSlash (path : String) : List String :=
  splitChar '/' path.data

/-- Python `'/'.join(parts)`. -/
def joinSlash : List String → String
  | [] => ""
  | [s] => s
  | s :: ss => s ++ "/" ++ joinSlash ss

/-- Python `path.split('/')[-1]`: the final path segment.  `str.split` always
returns a nonempty list, so the default is never used. -/
def lastSegment (path : String) : String :=
  (pySplitSlash path).getLastD ""

/-- Whether `needle` is a leading run of `hay`. -/
def startsWithChars : List Char → List Char → Bool
  | [], _ => true
  | _ :: _, [] => false
  | n :: ns, h :: hs => n = h && startsWithChars ns hs

/-- Whether `needle` occurs contiguously anywhere in `hay`. -/
def hasSubstrChars (needle : List Char) : List Char → Bool
  | [] => startsWithChars needle []
  | h :: hs => startsWithChars needle (h :: hs) || hasSubstrChars needle hs

/-- Python `'Test' in file_name`: substring membership. -/
def containsTest (s : String) : Bool :=
  hasSubstrChars "Test".data s.data

/-- Drop the leading characters satisfying `p`. -/
def dropWhileChar (p : Char → Bool) : List Char → List Char
  | [] => []
  | c :: cs => if p c then dropWhileChar p cs else c :: cs

/-- Python `path.lstrip('/')`: drop every leading `'/'` character. -/
def lstripSlash (s : String) : String :=
  String.mk (dropWhileChar (fun c => c = '/') s.data)

/-- Classpath-style candidate computation, `flow.py` lines 147-153: prepend
`src/test/<language>/` when the final segment contains `Test`, else
`src/main/<language>/`, to the raw path with leading slashes stripped. -/
def classpathCandidate (language path : String) : String :=
  let file_name := lastSegment path
  if containsTest file_name then
    "src/test/" ++ language ++ "/" ++ lstripSlash path
  else
    "src/main/" ++ language ++ "/" ++ lstripSlash path

/-- The `while i >= 0` scan of `flow.py` lines 160-166, expressed by recursion
on `i + 1`: `scanFrom dirs parts (i + 1)` inspects index `i`; it returns the
first (rightmost) index whose segment equals some tree entry, or `-1` when the
scan runs past index `0`, exactly as the Python loop variable ends at `-1`. -/
def scanFrom (dirs parts : List String) : Nat → Int
  | 0 => -1
  | i + 1 => if dirs.contains (parts.getD i "") then (i : Int) else scanFrom dirs parts i

/-- Python list slicing `l[i:]` for a possibly negative `Int` index, as
produced by the scan above: a negative index counts from the end and clamps
at `0`. -/
def pyTail (l : List String) (i : Int) : List String :=
  if 0 ≤ i then l.drop i.toNat else l.drop ((l.length : Int) + i).toNat

/-- Path-style candidate computation, `flow.py` lines 158-168: split the raw
path on `/`, scan from the last segment leftward for a segment equal to a
top-level tree entry, and join the suffix `path_parts[i:]` that starts there.
When no segment matches, the Python loop leaves `i = -1` and `path_parts[-1:]`
is the final segment alone. -/
def pathStyleCandidate (dirs : List String) (path : String) : String :=
  let path_parts := pySplitSlash path
  let i := scanFrom dirs path_parts path_parts.length
  joinSlash (pyTail path_parts i)

/-- Candidate path and the remote fetches its computation performs
(`flow.py` lines 147-168): the classpath branch is a pure string
transformation, the path-style branch fetches the top-level tree once. -/
def candidateAndOps (r : GithubRepo) (language path : String) : String × List RemoteOp :=
  if classpathLangs.contains language then
    (classpathCandidate language path, [])
  else
    (pathStyleCandidate r.treeEntries path, [RemoteOp.treeFetch])

/-- The permalink URL built at `flow.py` line 182. -/
def permalink (repo sha candidate_path : String) : String :=
  "https://github.com/" ++ repo ++ "/blob/" ++ sha ++ "/" ++ candidate_path

/-- The `ResolvedFile` constructed at `flow.py` lines 183-187. -/
def mkResolved (r : GithubRepo) (language repo commit candidate_path text : String) :
    ResolvedFile :=
  { file_id := { path := candidate_path, repo := repo, commit := commit,
                 url := permalink repo r.commitSha candidate_path,
                 language := language },
    content := text,
    snippet_offsets := [] }

/-- `StacktraceAgentFlow._resolve_file_in_github` (`flow.py` lines 124-187).
Returns the outcome together with the trace of remote fetches performed.
`Except.ok none` is the caught-`GithubException` branch returning `None`;
`Except.error ()` models an uncaught exception (the `content[0]` `IndexError`
on an empty directory listing, which the `except GithubException` clause does
not catch). -/
def resolve_file_in_github (r : GithubRepo) (language repo commit path : String) :
    Except Unit (Option ResolvedFile) × List RemoteOp :=
  let co := candidateAndOps r language path
  let candidate_path := co.1
  let ops := co.2 ++ [RemoteOp.contentFetch candidate_path]
  match getContents r candidate_path with
  | ContentResult.ghError => (Except.ok none, ops)
  | ContentResult.fileContent text =>
      (Except.ok (some (mkResolved r language repo commit candidate_path text)), ops)
  | ContentResult.listing texts =>
      match texts with
      | [] => (Except.error (), ops)
      | text :: _ =>
          (Except.ok (some (mkResolved r language repo commit candidate_path text)), ops)

/-- `files[k]` lookup / `k in files` membership for the Python dict of
`fetch_files`, as an association list in insertion order. -/
def dictFind : List (String × ResolvedFile) → String → Option ResolvedFile
  | [], _ => none
  | (k, v) :: rest, key => if k = key then some v else dictFind rest key

/-- Python dict assignment `files[k] = v`: update the existing entry in place
(keys are unique) or append a new entry, preserving insertion order. -/
def dictInsert : List (String × ResolvedFile) → String → ResolvedFile →
    List (String × ResolvedFile)
  | [], key, v => [(key, v)]
  | (k, w) :: rest, key, v =>
      if k = key then (key, v) :: rest else (k, w) :: dictInsert rest key v

/-- The external method-locator collaborator `_refine_method`
(`flow.py` lines 107-121): from the file's content and the frame's method
name to a line range.  `none` models the collaborator raising, which
`fetch_files` does not catch. -/
abbrev Locator : Type := String → String → Option FileOffset

/-- Append the snippet recorded at `flow.py` line 98:
`SnippetOffset(frame_id=idx, start=file_off.start, end=file_off.end)`. -/
def appendSnippet (f : ResolvedFile) (idx : Nat) (off : FileOffset) : ResolvedFile :=
  { f with snippet_offsets :=
      f.snippet_offsets ++ [{ start := off.start, end_ := off.end_, frame_id := some idx }] }

/-- The `for idx, frame in enumerate(ev.frames)` loop of `fetch_files`
(`flow.py` lines 84-99), with the accumulated `files` dict, the running frame
index, and the trace of remote fetches made so far.  A frame whose path
misses the dict is resolved afresh; a failed resolution (`None`) is logged
and skipped without recording anything; a hit reuses the stored file; a
successful step appends a snippet tagged with the frame's index and stores
the file back under the frame's raw path. -/
def fetchLoop (r : GithubRepo) (language repo commit : String) (locator : Locator) :
    List StackFrame → Nat → List (String × ResolvedFile) → List RemoteOp →
    Except Unit (List (String × ResolvedFile)) × List RemoteOp
  | [], _, files, ops => (Except.ok files, ops)
  | frame :: rest, idx, files, ops =>
    match dictFind files frame.path with
    | none =>
      match resolve_file_in_github r language repo commit frame.path with
      | (Except.error e, rops) => (Except.error e, ops ++ rops)
      | (Except.ok none, rops) =>
          fetchLoop r language repo commit locator rest (idx + 1) files (ops ++ rops)
      | (Except.ok (some f), rops) =>
          match locator f.content frame.method with
          | none => (Except.error (), ops ++ rops)
          | some off =>
              fetchLoop r language repo commit locator rest (idx + 1)
                (dictInsert files frame.path (appendSnippet f idx off)) (ops ++ rops)
    | some f =>
      match locator f.content frame.method with
      | none => (Except.error (), ops)
      | some off =>
          fetchLoop r language repo commit locator rest (idx + 1)
            (dictInsert files frame.path (appendSnippet f idx off)) ops

/-- The two `StopEvent` shapes `fetch_files` can return: the bare string
result `"Unable to link stack trace to files in Github"` when no file
resolved, or the `{'frames': ..., 'files': list(files.values())}` dict. -/
inductive StepResult where
  | stopAbort (result : String)
  | stopSuccess (frames : List StackFrame) (files : List ResolvedFile)
deriving Repr, DecidableEq

/-- The abort message of `flow.py` line 103. -/
def abortMessage : String := "Unable to link stack trace to files in Github"

/-- `StacktraceAgentFlow.fetch_files` (`flow.py` lines 82-105): run the frame
loop from an empty dict, then return the abort message when the dict is empty
and otherwise the frames together with the dict's values in insertion order.
The second component is the full trace of remote fetches; `Except.error ()`
models an uncaught exception escaping the step. -/
def fetch_files (r : GithubRepo) (language repo commit : String) (locator : Locator)
    (frames : List StackFrame) : Except Unit StepResult × List RemoteOp :=
  match fetchLoop r language repo commit locator frames 0 [] [] with
  | (Except.error e, ops) => (Except.error e, ops)
  | (Except.ok files, ops) =>
      if files.isEmpty then (Except.ok (StepResult.stopAbort abortMessage), ops)
      else (Except.ok (StepResult.stopSuccess frames (files.map Prod.snd)), ops)

/-- Frame indices tagged on the snippets of one resolved file. -/
def frameIds (f : ResolvedFile) : List Nat :=
  f.snippet_offsets.filterMap (fun s => s.frame_id)

/-- Number of snippets across the whole `files` dict tagged with frame
index `i`. -/
def idCount (files : List (String × ResolvedFile)) (i : Nat) : Nat :=
  (files.map (fun kv => (frameIds kv.2).count i)).sum

/-- Number of snippets in a step result tagged with frame index `i`; the
abort result carries no snippets. -/
def resultIdCount : StepResult → Nat → Nat
  | StepResult.stopAbort _, _ => 0
  | StepResult.stopSuccess _ fs, i => (fs.map (fun f => (frameIds f).count i)).sum

/-- Step result of a run, with a placeholder for a raised exception. -/
def resultOf : Except Unit StepResult → StepResult
  | Except.ok res => res
  | Except.error _ => StepResult.stopAbort ""

/-- Stack-frame fixture with the given raw path and method name. -/
def sampleFrame (p m : String) : StackFrame :=
  { reason := "r", path := p, method := m, lineno := 1, is_third_party := false }

/-- Method-locator fixture that always answers lines 1-2. -/
def locatorTotal : Locator := fun _ _ => some { start := 1, end_ := 2 }

/-- Method-locator fixture that always raises. -/
def locatorFailing : Locator := fun _ _ => none

/-- Repository fixture: top-level entries `{src}`, one real file
`src/foo.py`; every other path raises 404. -/
def repoSrcFoo : GithubRepo :=
  { treeEntries := ["src"], commitSha := "sha1",
    contents := [("src/foo.py", ContentResult.fileContent "X")] }

/-- Repository fixture where `src/pkg` is a directory: `get_contents`
returns the listing of its two entries. -/
def repoDir : GithubRepo :=
  { treeEntries := ["src"], commitSha := "sha1",
    contents := [("src/pkg", ContentResult.listing ["first", "second"])] }

/-! ## Helper lemmas -/

/-- Python `str.split` never returns an empty list. -/
lemma splitChar_ne_nil (sep : Char) : ∀ cs : List Char, splitChar sep cs ≠ []
  | [] => by simp [splitChar]
  | c :: cs => by
      simp only [splitChar]
      split
      · simp
      · cases h : splitChar sep cs <;> simp

lemma pySplitSlash_ne_nil (path : String) : pySplitSlash path ≠ [] :=
  splitChar_ne_nil '/' path.data

lemma joinSlash_singleton (s : String) : joinSlash [s] = s := rfl

/-- Dropping all but the final element leaves exactly the final element. -/
lemma drop_pred_length : ∀ (l : List String), l ≠ [] →
    l.drop (l.length - 1) = [l.getLastD ""]
  | [x], _ => rfl
  | x :: y :: rest, _ => by
      have ih := drop_pred_length (y :: rest) (by simp)
      simpa [List.getLastD] using ih

/-- The rightward scan stops at the rightmost matching index: if index `j`
matches and every index strictly between `j` and `n` does not, the scan from
`n` returns `j`. -/
lemma scanFrom_rightmost (dirs parts : List String) (j : Nat) :
    ∀ n, j < n → dirs.contains (parts.getD j "") = true →
      (∀ k, j < k → k < n → dirs.contains (parts.getD k "") = false) →
      scanFrom dirs parts n = (j : Int)
  | 0, hjn, _, _ => by omega
  | n + 1, hjn, hmatch, hnomatch => by
      by_cases hj : j = n
      · subst hj
        unfold scanFrom
        rw [if_pos hmatch]
      · have hn : dirs.contains (parts.getD n "") = false :=
          hnomatch n (by omega) (by omega)
        simp only [scanFrom, hn, Bool.false_eq_true, if_false]
        exact scanFrom_rightmost dirs parts j n (by omega) hmatch
          (fun k hk1 hk2 => hnomatch k hk1 (by omega))

/-- The rightward scan runs off the front (Python `i == -1`) when no segment
matches any tree entry. -/
lemma scanFrom_no_match (dirs parts : List String) :
    ∀ n, (∀ k, k < n → dirs.contains (parts.getD k "") = false) →
      scanFrom dirs parts n = -1
  | 0, _ => rfl
  | n + 1, h => by
      simp only [scanFrom, h n (Nat.lt_succ_self n), Bool.false_eq_true, if_false]
      exact scanFrom_no_match dirs parts n (fun k hk => h k (by omega))

/-- When no segment matches, the candidate degenerates to the final path
segment alone: Python `path_parts[-1:]`. -/
lemma pathStyleCandidate_no_match (dirs : List String) (path : String)
    (h : ∀ k, k < (pySplitSlash path).length →
      dirs.contains ((pySplitSlash path).getD k "") = false) :
    pathStyleCandidate dirs path = lastSegment path := by
  simp only [pathStyleCandidate, lastSegment]
  rw [scanFrom_no_match dirs _ _ h]
  unfold pyTail
  rw [if_neg (by decide)]
  have hne := pySplitSlash_ne_nil path
  have hlen : 1 ≤ (pySplitSlash path).length := by
    cases hsp : pySplitSlash path with
    | nil => exact absurd hsp hne
    | cons a l => simp
  have htn : (((pySplitSlash path).length : Int) + (-1)).toNat
      = (pySplitSlash path).length - 1 := by omega
  rw [htn, drop_pred_length _ hne, joinSlash_singleton]

/-- The remote fetches of one `_resolve_file_in_github` call are exactly the
candidate-computation fetches followed by one content fetch at the candidate
path, whatever the fetch outcome is. -/
lemma resolve_ops_eq (r : GithubRepo) (language repo commit path : String) :
    (resolve_file_in_github r language repo commit path).2
      = (candidateAndOps r language path).2
        ++ [RemoteOp.contentFetch (candidateAndOps r language path).1] := by
  simp only [resolve_file_in_github]
  cases h : getContents r (candidateAndOps r language path).1 with
  | fileContent text => simp [h]
  | ghError => simp [h]
  | listing texts => cases texts <;> simp [h]

/-- A successfully resolved file starts with an empty snippet list. -/
lemma resolve_ok_snips (r : GithubRepo) (language repo commit path : String)
    (f : ResolvedFile)
    (h : (resolve_file_in_github r language repo commit path).1 = Except.ok (some f)) :
    f.snippet_offsets = [] := by
  simp only [resolve_file_in_github] at h
  cases hg : getContents r (candidateAndOps r language path).1 with
  | fileContent text =>
      rw [hg] at h
      simp at h
      rw [← h]
      rfl
  | ghError => rw [hg] at h; simp at h
  | listing texts =>
      rw [hg] at h
      cases texts with
      | nil => simp at h
      | cons t ts =>
          simp at h
          rw [← h]
          rfl

/-! ## Claim C2: path-style resolution picks the rightmost matching suffix -/

/-- Claim C2: for path-style resolution, the candidate path is the suffix of
the raw path beginning at the rightmost segment that exactly matches a
top-level tree entry name (the scan walks from the end leftward and stops at
the first match); in particular `/usr/app/src/widgets/render.py` with
top-level entries `{src, tests, README.md}` yields
`src/widgets/render.py`. -/
theorem C2_rightmost_suffix (dirs : List String) (path : String) (j : Nat)
    (hj : j < (pySplitSlash path).length)
    (hmatch : dirs.contains ((pySplitSlash path).getD j "") = true)
    (hright : ∀ k, j < k → k < (pySplitSlash path).length →
      dirs.contains ((pySplitSlash path).getD k "") = false) :
    pathStyleCandidate dirs path = joinSlash ((pySplitSlash path).drop j)
    ∧ pathStyleCandidate ["src", "tests", "README.md"] "/usr/app/src/widgets/render.py"
        = "src/widgets/render.py" := by
  constructor
  · simp only [pathStyleCandidate]
    rw [scanFrom_rightmost dirs _ j _ hj hmatch hright]
    simp only [pyTail]
    rw [if_pos (by omega : (0 : Int) ≤ (j : Nat))]
    simp
  · decide

/-- Witness for C2 at the spec's concrete example: segment index 3 (`src`)
matches, nothing to its right does, and the candidate is the suffix from
there. -/
theorem C2_rightmost_suffix_witness :
    (3 < (pySplitSlash "/usr/app/src/widgets/render.py").length
      ∧ ["src", "tests", "README.md"].contains
          ((pySplitSlash "/usr/app/src/widgets/render.py").getD 3 "") = true)
    ∧ pathStyleCandidate ["src", "tests", "README.md"] "/usr/app/src/widgets/render.py"
        = joinSlash ((pySplitSlash "/usr/app/src/widgets/render.py").drop 3) := by
  have hr : ∀ k, k < 6 → 3 < k →
      (["src", "tests", "README.md"].contains
        ((pySplitSlash "/usr/app/src/widgets/render.py").getD k "")) = false := by decide
  exact ⟨⟨by decide, by decide⟩,
    (C2_rightmost_suffix ["src", "tests", "README.md"] "/usr/app/src/widgets/render.py" 3
      (by decide) (by decide) (fun k h1 h2 => hr k h2 h1)).1⟩

/-! ## Claim C3: no matching segment -/

/-- Counterexample to claim C3 as stated: with top-level entries `{src}` and
raw path `/x/y/render.py` no segment matches, and the resolver does return
`None`, but it still performs a content fetch (at the bare final segment
`render.py`), contradicting "performs no content fetch for it". -/
theorem C3_counterexample :
    (resolve_file_in_github repoSrcFoo "python" "o/r" "c" "/x/y/render.py").2
        = [RemoteOp.treeFetch, RemoteOp.contentFetch "render.py"]
    ∧ (resolve_file_in_github repoSrcFoo "python" "o/r" "c" "/x/y/render.py").1
        = Except.ok none :=
  ⟨rfl, rfl⟩

/-- Claim C3 amended: when no segment of a path-style raw path matches any
top-level entry, the Python loop index ends at `-1`, so `path_parts[-1:]`
makes the candidate the final segment alone; one content fetch is attempted
at that bare filename, and when the repository reports it missing (404) the
resolver returns `None`.  So `NotFound` is indeed returned, but only after a
content fetch, not before. -/
theorem C3_no_match_fallback (r : GithubRepo) (language repo commit path : String)
    (hlang : classpathLangs.contains language = false)
    (hnomatch : ∀ k, k < (pySplitSlash path).length →
      r.treeEntries.contains ((pySplitSlash path).getD k "") = false)
    (h404 : getContents r (lastSegment path) = ContentResult.ghError) :
    resolve_file_in_github r language repo commit path
      = (Except.ok none, [RemoteOp.treeFetch, RemoteOp.contentFetch (lastSegment path)]) := by
  have hcand : candidateAndOps r language path = (lastSegment path, [RemoteOp.treeFetch]) := by
    simp only [candidateAndOps, hlang, Bool.false_eq_true, if_false]
    rw [pathStyleCandidate_no_match r.treeEntries path hnomatch]
  simp only [resolve_file_in_github, hcand]
  rw [h404]
  rfl

/-- Witness for the amended C3 at a concrete no-match input. -/
theorem C3_no_match_fallback_witness :
    (classpathLangs.contains "python" = false
      ∧ getContents repoSrcFoo (lastSegment "/x/y/render.py") = ContentResult.ghError)
    ∧ resolve_file_in_github repoSrcFoo "python" "o/r" "c" "/x/y/render.py"
        = (Except.ok none,
           [RemoteOp.treeFetch, RemoteOp.contentFetch (lastSegment "/x/y/render.py")]) := by
  have hr : ∀ k, k < 4 →
      repoSrcFoo.treeEntries.contains ((pySplitSlash "/x/y/render.py").getD k "") = false := by
    decide
  exact ⟨⟨by decide, rfl⟩,
    C3_no_match_fallback repoSrcFoo "python" "o/r" "c" "/x/y/render.py"
      (by decide) (fun k hk => hr k hk) rfl⟩

/-! ## Claim C4: classpath-style candidate computation -/

/-- Claim C4: for the fixed classpath-style set `{java, scala, kotlin}` the
candidate is a pure string transformation — the only remote fetch of the
whole resolution is the single content fetch at the transformed path, which
strips leading slashes and prepends the test source root when the final
segment contains `Test` and the main source root otherwise; the two spec
examples are included. -/
theorem C4_classpath_candidate (r : GithubRepo) (repo commit language path : String)
    (hlang : language = "java" ∨ language = "scala" ∨ language = "kotlin") :
    (resolve_file_in_github r language repo commit path).2
      = [RemoteOp.contentFetch
          ((if containsTest (lastSegment path) then "src/test/" ++ language ++ "/"
            else "src/main/" ++ language ++ "/") ++ lstripSlash path)]
    ∧ classpathCandidate "java" "com/example/Foo.java" = "src/main/java/com/example/Foo.java"
    ∧ classpathCandidate "java" "com/example/FooTest.java"
        = "src/test/java/com/example/FooTest.java" := by
  refine ⟨?_, rfl, rfl⟩
  have hc : classpathLangs.contains language = true := by
    rcases hlang with h | h | h <;> subst h <;> decide
  rw [resolve_ops_eq]
  simp only [candidateAndOps, hc, if_true, classpathCandidate]
  by_cases ht : containsTest (lastSegment path) <;> simp [ht]

/-- Witness for C4 at the spec's `java` examples. -/
theorem C4_classpath_candidate_witness :
    ("java" = "java" ∨ "java" = "scala" ∨ "java" = "kotlin")
    ∧ (resolve_file_in_github repoSrcFoo "java" "o/r" "c" "com/example/Foo.java").2
        = [RemoteOp.contentFetch "src/main/java/com/example/Foo.java"] := by
  refine ⟨Or.inl rfl, ?_⟩
  exact ((C4_classpath_candidate repoSrcFoo "o/r" "c" "java" "com/example/Foo.java"
    (Or.inl rfl)).1).trans (by decide)

/-! ## Claim C10: directory candidate silently resolves to its first entry -/

/-- Claim C10: when the validated candidate path denotes a directory (the
contents fetch returns a list), resolution does not fail — the code takes
`content[0]` and returns a `ResolvedFile` whose `content` is that first
entry's decoded text, under the candidate path itself, as a successful
resolution. -/
theorem C10_directory_listing (r : GithubRepo) (language repo commit path text : String)
    (rest : List String)
    (hdir : getContents r (candidateAndOps r language path).1
      = ContentResult.listing (text :: rest)) :
    (resolve_file_in_github r language repo commit path).1
      = Except.ok (some
          { file_id := { path := (candidateAndOps r language path).1, repo := repo,
                         commit := commit,
                         url := permalink repo r.commitSha (candidateAndOps r language path).1,
                         language := language },
            content := text, snippet_offsets := [] }) := by
  simp only [resolve_file_in_github]
  rw [hdir]
  rfl

/-- Witness for C10: `src/pkg` is a directory with entries decoded as
`first` and `second`; resolution succeeds with content `first`. -/
theorem C10_directory_listing_witness :
    getContents repoDir (candidateAndOps repoDir "python" "/a/src/pkg").1
        = ContentResult.listing ("first" :: ["second"])
    ∧ (resolve_file_in_github repoDir "python" "o/r" "c" "/a/src/pkg").1
        = Except.ok (some
            { file_id := { path := (candidateAndOps repoDir "python" "/a/src/pkg").1,
                           repo := "o/r", commit := "c",
                           url := permalink "o/r" repoDir.commitSha
                             (candidateAndOps repoDir "python" "/a/src/pkg").1,
                           language := "python" },
              content := "first", snippet_offsets := [] }) :=
  ⟨rfl, C10_directory_listing repoDir "python" "o/r" "c" "/a/src/pkg" "first" ["second"] rfl⟩

/-! ## Session-level helper lemmas -/

/-- Looking up the key just inserted finds the inserted value. -/
lemma dictFind_insert_self : ∀ (files : List (String × ResolvedFile)) (k : String)
    (v : ResolvedFile), dictFind (dictInsert files k v) k = some v
  | [], k, v => by simp [dictInsert, dictFind]
  | (k', w) :: rest, k, v => by
      by_cases h : k' = k
      · simp [dictInsert, dictFind, h]
      · simp only [dictInsert, h, if_false, dictFind]
        exact dictFind_insert_self rest k v

/-- Once a frame's raw path is present in the `files` dict, processing any
run of frames with that same raw path performs no remote fetch at all:
the loop finishes with the op trace it started with (provided the
method locator does not raise). -/
lemma fetchLoop_cached (r : GithubRepo) (language repo commit : String) (loc : Locator)
    (p : String) (hloc : ∀ content m, (loc content m).isSome) :
    ∀ (frames : List StackFrame) (idx : Nat) (files : List (String × ResolvedFile))
      (ops : List RemoteOp) (g : ResolvedFile),
      (∀ fr ∈ frames, fr.path = p) → dictFind files p = some g →
      ∃ files', fetchLoop r language repo commit loc frames idx files ops
        = (Except.ok files', ops)
  | [], _, files, _, _, _, _ => ⟨files, rfl⟩
  | frame :: rest, idx, files, ops, g, hall, hfound => by
      have hp : frame.path = p := hall frame (List.mem_cons_self _ _)
      obtain ⟨off, hoff⟩ := Option.isSome_iff_exists.mp (hloc g.content frame.method)
      simp only [fetchLoop, hp, hfound, hoff]
      exact fetchLoop_cached r language repo commit loc p hloc rest (idx + 1)
        (dictInsert files p (appendSnippet g idx off)) ops (appendSnippet g idx off)
        (fun fr hfr => hall fr (List.mem_cons_of_mem _ hfr))
        (dictFind_insert_self files p _)

/-- When every frame's raw path fails to resolve, the loop keeps the dict
empty and never raises. -/
lemma fetchLoop_all_fail (r : GithubRepo) (language repo commit : String) (loc : Locator) :
    ∀ (frames : List StackFrame) (idx : Nat) (ops : List RemoteOp),
      (∀ fr ∈ frames,
        (resolve_file_in_github r language repo commit fr.path).1 = Except.ok none) →
      ∃ ops', fetchLoop r language repo commit loc frames idx [] ops = (Except.ok [], ops')
  | [], _, ops, _ => ⟨ops, rfl⟩
  | frame :: rest, idx, ops, hfail => by
      have h1 := hfail frame (List.mem_cons_self _ _)
      rcases hre : resolve_file_in_github r language repo commit frame.path with ⟨res1, rops⟩
      rw [hre] at h1
      simp only at h1
      subst h1
      simp only [fetchLoop, dictFind]
      rw [hre]
      exact fetchLoop_all_fail r language repo commit loc rest (idx + 1) (ops ++ rops)
        (fun fr hfr => hfail fr (List.mem_cons_of_mem _ hfr))

/-- One loop step on a cache miss that resolves successfully: append the
snippet tagged with the frame index and store the file under the raw path. -/
lemma fetchLoop_step_miss_ok (r : GithubRepo) (language repo commit : String)
    (loc : Locator) (frame : StackFrame) (rest : List StackFrame) (idx : Nat)
    (files : List (String × ResolvedFile)) (ops : List RemoteOp)
    (f : ResolvedFile) (rops : List RemoteOp) (off : FileOffset)
    (hmiss : dictFind files frame.path = none)
    (hres : resolve_file_in_github r language repo commit frame.path
      = (Except.ok (some f), rops))
    (hl : loc f.content frame.method = some off) :
    fetchLoop r language repo commit loc (frame :: rest) idx files ops
      = fetchLoop r language repo commit loc rest (idx + 1)
          (dictInsert files frame.path (appendSnippet f idx off)) (ops ++ rops) := by
  simp only [fetchLoop, hmiss]
  rw [hres]
  simp only [hl]

/-- One loop step on a cache hit: reuse the stored file, append the snippet,
store it back; no remote fetch happens. -/
lemma fetchLoop_step_hit (r : GithubRepo) (language repo commit : String)
    (loc : Locator) (frame : StackFrame) (rest : List StackFrame) (idx : Nat)
    (files : List (String × ResolvedFile)) (ops : List RemoteOp)
    (g : ResolvedFile) (off : FileOffset)
    (hfound : dictFind files frame.path = some g)
    (hl : loc g.content frame.method = some off) :
    fetchLoop r language repo commit loc (frame :: rest) idx files ops
      = fetchLoop r language repo commit loc rest (idx + 1)
          (dictInsert files frame.path (appendSnippet g idx off)) ops := by
  simp only [fetchLoop, hfound, hl]

/-- One loop step on a cache miss whose resolution fails: the frame is
skipped, nothing is recorded, and the loop continues. -/
lemma fetchLoop_step_miss_none (r : GithubRepo) (language repo commit : String)
    (loc : Locator) (frame : StackFrame) (rest : List StackFrame) (idx : Nat)
    (files : List (String × ResolvedFile)) (ops : List RemoteOp) (rops : List RemoteOp)
    (hmiss : dictFind files frame.path = none)
    (hres : resolve_file_in_github r language repo commit frame.path
      = (Except.ok none, rops)) :
    fetchLoop r language repo commit loc (frame :: rest) idx files ops
      = fetchLoop r language repo commit loc rest (idx + 1) files (ops ++ rops) := by
  simp only [fetchLoop, hmiss]
  rw [hres]

/-- One loop step on a cache miss whose resolution raises uncaught: the whole
loop raises. -/
lemma fetchLoop_step_miss_error (r : GithubRepo) (language repo commit : String)
    (loc : Locator) (frame : StackFrame) (rest : List StackFrame) (idx : Nat)
    (files : List (String × ResolvedFile)) (ops : List RemoteOp)
    (e : Unit) (rops : List RemoteOp)
    (hmiss : dictFind files frame.path = none)
    (hres : resolve_file_in_github r language repo commit frame.path
      = (Except.error e, rops)) :
    fetchLoop r language repo commit loc (frame :: rest) idx files ops
      = (Except.error e, ops ++ rops) := by
  simp only [fetchLoop, hmiss]
  rw [hres]

/-- One loop step on a cache miss that resolves but whose method locator
raises: the whole loop raises. -/
lemma fetchLoop_step_miss_locfail (r : GithubRepo) (language repo commit : String)
    (loc : Locator) (frame : StackFrame) (rest : List StackFrame) (idx : Nat)
    (files : List (String × ResolvedFile)) (ops : List RemoteOp)
    (f : ResolvedFile) (rops : List RemoteOp)
    (hmiss : dictFind files frame.path = none)
    (hres : resolve_file_in_github r language repo commit frame.path
      = (Except.ok (some f), rops))
    (hl : loc f.content frame.method = none) :
    fetchLoop r language repo commit loc (frame :: rest) idx files ops
      = (Except.error (), ops ++ rops) := by
  simp only [fetchLoop, hmiss]
  rw [hres]
  simp only [hl]

/-- One loop step on a cache hit whose method locator raises: the whole loop
raises. -/
lemma fetchLoop_step_hit_locfail (r : GithubRepo) (language repo commit : String)
    (loc : Locator) (frame : StackFrame) (rest : List StackFrame) (idx : Nat)
    (files : List (String × ResolvedFile)) (ops : List RemoteOp)
    (g : ResolvedFile)
    (hfound : dictFind files frame.path = some g)
    (hl : loc g.content frame.method = none) :
    fetchLoop r language repo commit loc (frame :: rest) idx files ops
      = (Except.error (), ops) := by
  simp only [fetchLoop, hfound, hl]

/-- A dict assignment never leaves the dict empty. -/
lemma dictInsert_ne_nil : ∀ (files : List (String × ResolvedFile)) (k : String)
    (v : ResolvedFile), dictInsert files k v ≠ []
  | [], k, v => by simp [dictInsert]
  | (k', w) :: rest, k, v => by
      simp only [dictInsert]
      split <;> simp

/-- When no frame's resolution raises and the method locator always answers,
the loop completes without raising; and if the dict is already nonempty or
some frame's raw path resolves to a file, the final dict is nonempty. -/
lemma fetchLoop_total_ok (r : GithubRepo) (language repo commit : String) (loc : Locator)
    (hloc : ∀ content m, (loc content m).isSome) :
    ∀ (frames : List StackFrame) (idx : Nat) (files : List (String × ResolvedFile))
      (ops : List RemoteOp),
      (∀ fr ∈ frames, ∃ o,
        (resolve_file_in_github r language repo commit fr.path).1 = Except.ok o) →
      ∃ files' ops',
        fetchLoop r language repo commit loc frames idx files ops = (Except.ok files', ops')
        ∧ ((files ≠ [] ∨ ∃ fr ∈ frames, ∃ f rops,
              resolve_file_in_github r language repo commit fr.path
                = (Except.ok (some f), rops))
            → files' ≠ [])
  | [], _, files, ops, _ => ⟨files, ops, rfl, by
      rintro (h | ⟨fr, hfr, _⟩)
      · exact h
      · exact absurd hfr (List.not_mem_nil fr)⟩
  | frame :: rest, idx, files, ops, hok => by
      obtain ⟨o, ho⟩ := hok frame (List.mem_cons_self _ _)
      have hres : resolve_file_in_github r language repo commit frame.path
          = (Except.ok o, (resolve_file_in_github r language repo commit frame.path).2) :=
        Prod.ext_iff.mpr ⟨ho, rfl⟩
      rcases hf : dictFind files frame.path with _ | g
      · cases o with
        | none =>
            obtain ⟨files', ops', heq, hne⟩ := fetchLoop_total_ok r language repo commit loc
              hloc rest (idx + 1) files
              (ops ++ (resolve_file_in_github r language repo commit frame.path).2)
              (fun fr hfr => hok fr (List.mem_cons_of_mem _ hfr))
            refine ⟨files', ops', ?_, ?_⟩
            · rw [fetchLoop_step_miss_none r language repo commit loc frame rest idx files
                ops (resolve_file_in_github r language repo commit frame.path).2 hf hres]
              exact heq
            · rintro (h | ⟨fr, hfr, f, rops2, hres2⟩)
              · exact hne (Or.inl h)
              · rcases List.mem_cons.mp hfr with hfr1 | hfr2
                · subst hfr1
                  rw [hres2] at ho
                  simp at ho
                · exact hne (Or.inr ⟨fr, hfr2, f, rops2, hres2⟩)
        | some f =>
            obtain ⟨off, hoff⟩ := Option.isSome_iff_exists.mp (hloc f.content frame.method)
            obtain ⟨files', ops', heq, hne⟩ := fetchLoop_total_ok r language repo commit loc
              hloc rest (idx + 1) (dictInsert files frame.path (appendSnippet f idx off))
              (ops ++ (resolve_file_in_github r language repo commit frame.path).2)
              (fun fr hfr => hok fr (List.mem_cons_of_mem _ hfr))
            refine ⟨files', ops', ?_, fun _ => hne (Or.inl (dictInsert_ne_nil _ _ _))⟩
            rw [fetchLoop_step_miss_ok r language repo commit loc frame rest idx files ops f
              (resolve_file_in_github r language repo commit frame.path).2 off hf hres hoff]
            exact heq
      · obtain ⟨off, hoff⟩ := Option.isSome_iff_exists.mp (hloc g.content frame.method)
        obtain ⟨files', ops', heq, hne⟩ := fetchLoop_total_ok r language repo commit loc
          hloc rest (idx + 1) (dictInsert files frame.path (appendSnippet g idx off)) ops
          (fun fr hfr => hok fr (List.mem_cons_of_mem _ hfr))
        refine ⟨files', ops', ?_, fun _ => hne (Or.inl (dictInsert_ne_nil _ _ _))⟩
        rw [fetchLoop_step_hit r language repo commit loc frame rest idx files ops g off
          hf hoff]
        exact heq

/-- One resolution call performs at most one tree fetch. -/
lemma resolve_tree_count_le (r : GithubRepo) (language repo commit path : String) :
    ((resolve_file_in_github r language repo commit path).2).count RemoteOp.treeFetch ≤ 1 := by
  rw [resolve_ops_eq]
  simp only [candidateAndOps]
  by_cases hc : language ∈ classpathLangs <;>
    simp [hc, List.count_append, List.count_cons, List.count_nil]

/-- Across the whole loop, each frame contributes at most one tree fetch. -/
lemma fetchLoop_tree_count (r : GithubRepo) (language repo commit : String) (loc : Locator) :
    ∀ (frames : List StackFrame) (idx : Nat) (files : List (String × ResolvedFile))
      (ops : List RemoteOp),
      ((fetchLoop r language repo commit loc frames idx files ops).2).count RemoteOp.treeFetch
        ≤ ops.count RemoteOp.treeFetch + frames.length
  | [], _, files, ops => by simp [fetchLoop]
  | frame :: rest, idx, files, ops => by
      simp only [fetchLoop, List.length_cons]
      rcases hf : dictFind files frame.path with _ | g
      · rcases hre : resolve_file_in_github r language repo commit frame.path with ⟨res1, rops⟩
        have hrle : rops.count RemoteOp.treeFetch ≤ 1 := by
          have h := resolve_tree_count_le r language repo commit frame.path
          rw [hre] at h
          exact h
        cases res1 with
        | error e =>
            try dsimp only
            simp only [List.count_append]
            omega
        | ok o =>
            cases o with
            | none =>
                have ih := fetchLoop_tree_count r language repo commit loc rest (idx + 1)
                  files (ops ++ rops)
                try dsimp only
                simp only [List.count_append] at ih ⊢
                omega
            | some f =>
                try dsimp only
                cases hl : loc f.content frame.method with
                | none =>
                    simp only [hl]
                    try dsimp only
                    simp only [List.count_append]
                    omega
                | some off =>
                    have ih := fetchLoop_tree_count r language repo commit loc rest (idx + 1)
                      (dictInsert files frame.path (appendSnippet f idx off)) (ops ++ rops)
                    simp only [hl]
                    try dsimp only
                    simp only [List.count_append] at ih ⊢
                    omega
      · try dsimp only
        cases hl : loc g.content frame.method with
        | none =>
            simp only [hl]
            try dsimp only
            omega
        | some off =>
            have ih := fetchLoop_tree_count r language repo commit loc rest (idx + 1)
              (dictInsert files frame.path (appendSnippet g idx off)) ops
            simp only [hl]
            try dsimp only
            omega

/-! ## Claim C1: per-session deduplication of resolution work -/

/-- Counterexample to claim C1 as stated, at one concrete session: the dict
caches only successful resolutions and is keyed by raw path.  Frames 0 and 1
share the raw path `/a/q.py`, whose resolution fails, so the resolution work
(tree fetch + content fetch at candidate `q.py`) runs twice for that raw
path; frames 2 and 3 carry distinct raw paths that both canonicalize to
`src/foo.py`, whose content is therefore fetched twice — contradicting both
"at most once per raw path" and "at most one content fetch per distinct
canonical path". -/
theorem C1_counterexample :
    ((fetch_files repoSrcFoo "python" "o/r" "c" locatorTotal
        [sampleFrame "/a/q.py" "m1", sampleFrame "/a/q.py" "m2",
         sampleFrame "/a/src/foo.py" "m3", sampleFrame "/b/src/foo.py" "m4"]).2).count
      (RemoteOp.contentFetch "src/foo.py") = 2
    ∧ ((fetch_files repoSrcFoo "python" "o/r" "c" locatorTotal
        [sampleFrame "/a/q.py" "m1", sampleFrame "/a/q.py" "m2",
         sampleFrame "/a/src/foo.py" "m3", sampleFrame "/b/src/foo.py" "m4"]).2).count
      (RemoteOp.contentFetch "q.py") = 2 :=
  ⟨by decide, by decide⟩

/-- Claim C1 amended: deduplication holds per raw path once a resolution has
succeeded — when every frame of the session shares one raw path and that
path's resolution succeeds (and the method locator never raises), the whole
session performs exactly the remote fetches of a single resolution call;
later frames are served from the dict without any further fetch. -/
theorem C1_resolve_once_on_success (r : GithubRepo) (language repo commit : String)
    (loc : Locator) (p : String) (f : ResolvedFile) (rops : List RemoteOp)
    (frames : List StackFrame)
    (hloc : ∀ content m, (loc content m).isSome)
    (hall : ∀ fr ∈ frames, fr.path = p)
    (hne : frames ≠ [])
    (hres : resolve_file_in_github r language repo commit p
      = (Except.ok (some f), rops)) :
    (fetch_files r language repo commit loc frames).2 = rops := by
  cases frames with
  | nil => exact absurd rfl hne
  | cons frame rest =>
    have hp : frame.path = p := hall frame (List.mem_cons_self _ _)
    obtain ⟨off, hoff⟩ := Option.isSome_iff_exists.mp (hloc f.content frame.method)
    have hstep : fetchLoop r language repo commit loc (frame :: rest) 0 [] []
        = fetchLoop r language repo commit loc rest 1
            (dictInsert [] p (appendSnippet f 0 off)) ([] ++ rops) := by
      simp only [fetchLoop, hp, dictFind]
      rw [hres]
      simp only [hoff]
    obtain ⟨files', hrest⟩ := fetchLoop_cached r language repo commit loc p hloc rest 1
      (dictInsert [] p (appendSnippet f 0 off)) ([] ++ rops) (appendSnippet f 0 off)
      (fun fr hfr => hall fr (List.mem_cons_of_mem _ hfr))
      (dictFind_insert_self [] p _)
    simp only [fetch_files, hstep, hrest]
    by_cases he : files'.isEmpty <;> simp [he]

/-- Witness for the amended C1: a two-frame session on one raw path performs
exactly one tree fetch and one content fetch. -/
theorem C1_resolve_once_witness :
    resolve_file_in_github repoSrcFoo "python" "o/r" "c" "/a/src/foo.py"
      = (Except.ok (some (mkResolved repoSrcFoo "python" "o/r" "c" "src/foo.py" "X")),
         [RemoteOp.treeFetch, RemoteOp.contentFetch "src/foo.py"])
    ∧ (fetch_files repoSrcFoo "python" "o/r" "c" locatorTotal
        [sampleFrame "/a/src/foo.py" "m1", sampleFrame "/a/src/foo.py" "m2"]).2
        = [RemoteOp.treeFetch, RemoteOp.contentFetch "src/foo.py"] := by
  refine ⟨rfl, ?_⟩
  exact C1_resolve_once_on_success repoSrcFoo "python" "o/r" "c" locatorTotal
    "/a/src/foo.py" (mkResolved repoSrcFoo "python" "o/r" "c" "src/foo.py" "X")
    [RemoteOp.treeFetch, RemoteOp.contentFetch "src/foo.py"]
    [sampleFrame "/a/src/foo.py" "m1", sampleFrame "/a/src/foo.py" "m2"]
    (fun _ _ => rfl) (by decide) (by simp) rfl

/-! ## Claim C6: two frames on the same path aggregate onto one file -/

/-- Claim C6: a session of two frames with identical raw path and different
methods, whose shared path resolves successfully, produces exactly one
`ResolvedFile` for that path, carrying exactly two snippet entries tagged
with the two distinct frame indices 0 and 1. -/
theorem C6_shared_path_two_snippets (r : GithubRepo) (language repo commit : String)
    (loc : Locator) (fr1 fr2 : StackFrame) (p : String) (f : ResolvedFile)
    (rops : List RemoteOp) (o1 o2 : FileOffset)
    (hp1 : fr1.path = p) (hp2 : fr2.path = p) (hm : fr1.method ≠ fr2.method)
    (hres : resolve_file_in_github r language repo commit p
      = (Except.ok (some f), rops))
    (hl1 : loc f.content fr1.method = some o1)
    (hl2 : loc f.content fr2.method = some o2) :
    (fetch_files r language repo commit loc [fr1, fr2]).1
      = Except.ok (StepResult.stopSuccess [fr1, fr2]
          [{ f with snippet_offsets :=
              [{ start := o1.start, end_ := o1.end_, frame_id := some 0 },
               { start := o2.start, end_ := o2.end_, frame_id := some 1 }] }]) := by
  subst hp1
  have hsnips : f.snippet_offsets = [] :=
    resolve_ok_snips r language repo commit fr1.path f (by rw [hres])
  have hc2 : loc (appendSnippet f 0 o1).content fr2.method = some o2 := hl2
  have hfound : dictFind [(fr1.path, appendSnippet f 0 o1)] fr2.path
      = some (appendSnippet f 0 o1) := by
    rw [hp2]
    simp [dictFind]
  have hloop : fetchLoop r language repo commit loc [fr1, fr2] 0 [] []
      = (Except.ok [(fr2.path, appendSnippet (appendSnippet f 0 o1) 1 o2)], [] ++ rops) := by
    rw [fetchLoop_step_miss_ok r language repo commit loc fr1 [fr2] 0 [] []
      f rops o1 rfl hres hl1]
    rw [show dictInsert [] fr1.path (appendSnippet f 0 o1)
      = [(fr1.path, appendSnippet f 0 o1)] from rfl]
    rw [fetchLoop_step_hit r language repo commit loc fr2 [] 1
      [(fr1.path, appendSnippet f 0 o1)] ([] ++ rops) (appendSnippet f 0 o1) o2 hfound hc2]
    rw [show dictInsert [(fr1.path, appendSnippet f 0 o1)] fr2.path
        (appendSnippet (appendSnippet f 0 o1) 1 o2)
      = [(fr2.path, appendSnippet (appendSnippet f 0 o1) 1 o2)] from by
        simp [dictInsert, hp2]]
    rfl
  simp only [fetch_files, hloop]
  simp [appendSnippet, hsnips]

/-- Witness for C6 with a locator distinguishing the two methods. -/
theorem C6_shared_path_witness :
    (sampleFrame "/a/src/foo.py" "m1").method ≠ (sampleFrame "/a/src/foo.py" "m2").method
    ∧ (fetch_files repoSrcFoo "python" "o/r" "c" locatorTotal
        [sampleFrame "/a/src/foo.py" "m1", sampleFrame "/a/src/foo.py" "m2"]).1
      = Except.ok (StepResult.stopSuccess
          [sampleFrame "/a/src/foo.py" "m1", sampleFrame "/a/src/foo.py" "m2"]
          [{ mkResolved repoSrcFoo "python" "o/r" "c" "src/foo.py" "X" with
              snippet_offsets :=
               [{ start := 1, end_ := 2, frame_id := some 0 },
                { start := 1, end_ := 2, frame_id := some 1 }] }]) := by
  refine ⟨by decide, ?_⟩
  exact C6_shared_path_two_snippets repoSrcFoo "python" "o/r" "c" locatorTotal
    (sampleFrame "/a/src/foo.py" "m1") (sampleFrame "/a/src/foo.py" "m2")
    "/a/src/foo.py" (mkResolved repoSrcFoo "python" "o/r" "c" "src/foo.py" "X")
    [RemoteOp.treeFetch, RemoteOp.contentFetch "src/foo.py"]
    { start := 1, end_ := 2 } { start := 1, end_ := 2 }
    rfl rfl (by decide) rfl rfl rfl

/-! ## Claim C7: zero resolved files is a distinct session-level outcome -/

/-- Counterexample to claim C7 as stated, at one concrete all-fail session:
the session does return a distinct session-level outcome, but it is the bare
message string `"Unable to link stack trace to files in Github"` — it
carries no file set and no `unresolved_frame_indices` covering the input
indices 0 and 1 (the abort constructor records no frame index at all). -/
theorem C7_counterexample :
    (fetch_files repoSrcFoo "python" "o/r" "c" locatorTotal
        [sampleFrame "/a/q.py" "m1", sampleFrame "/b/w.py" "m2"]).1
      = Except.ok (StepResult.stopAbort "Unable to link stack trace to files in Github")
    ∧ resultIdCount
        (StepResult.stopAbort "Unable to link stack trace to files in Github") 0 = 0
    ∧ resultIdCount
        (StepResult.stopAbort "Unable to link stack trace to files in Github") 1 = 0 :=
  ⟨rfl, rfl, rfl⟩

/-- Claim C7 amended: a session in which every frame's resolution fails
returns the session-level abort message (with no file set and no record of
unresolved indices); a session in which at least one frame's raw path
resolves to a file — provided no resolution raises uncaught and the method
locator always answers — terminates successfully with a nonempty resolved
file list; and any successful session result carries a nonempty file list.
Without the no-raise proviso the positive direction fails: an uncaught
method-locator failure errors the whole session (see the C8 analysis). -/
theorem C7_zero_files_abort (r : GithubRepo) (language repo commit : String)
    (loc : Locator) (frames : List StackFrame)
    (hfail : ∀ fr ∈ frames,
      (resolve_file_in_github r language repo commit fr.path).1 = Except.ok none) :
    (fetch_files r language repo commit loc frames).1
        = Except.ok (StepResult.stopAbort abortMessage)
    ∧ (∀ frames₂ : List StackFrame,
        (∀ content m, (loc content m).isSome) →
        (∀ fr ∈ frames₂, ∃ o,
          (resolve_file_in_github r language repo commit fr.path).1 = Except.ok o) →
        (∃ fr ∈ frames₂, ∃ f rops,
          resolve_file_in_github r language repo commit fr.path
            = (Except.ok (some f), rops)) →
        ∃ (files : List ResolvedFile) (ops₂ : List RemoteOp),
          fetch_files r language repo commit loc frames₂
            = (Except.ok (StepResult.stopSuccess frames₂ files), ops₂) ∧ files ≠ [])
    ∧ ∀ (frames₂ fs : List StackFrame) (files : List ResolvedFile),
        (fetch_files r language repo commit loc frames₂).1
          = Except.ok (StepResult.stopSuccess fs files) → files ≠ [] := by
  refine ⟨?_, ?_, ?_⟩
  · obtain ⟨ops', h⟩ := fetchLoop_all_fail r language repo commit loc frames 0 [] hfail
    simp only [fetch_files, h]
    rfl
  · intro frames₂ hloc hok hsome
    obtain ⟨files', ops', heq, hne⟩ :=
      fetchLoop_total_ok r language repo commit loc hloc frames₂ 0 [] [] hok
    have hfe : files' ≠ [] := hne (Or.inr hsome)
    have hie : files'.isEmpty = false := by
      cases files' with
      | nil => exact absurd rfl hfe
      | cons a l => rfl
    refine ⟨files'.map Prod.snd, ops', ?_, ?_⟩
    · simp only [fetch_files, heq, hie, Bool.false_eq_true, if_false]
    · intro hmap
      exact hfe (List.map_eq_nil_iff.mp hmap)
  · intro frames₂ fs files h hnil
    subst hnil
    simp only [fetch_files] at h
    rcases hl : fetchLoop r language repo commit loc frames₂ 0 [] [] with ⟨res0, ops0⟩
    rw [hl] at h
    cases res0 with
    | error e => simp at h
    | ok l =>
        cases l with
        | nil => simp at h
        | cons kv l' => simp at h

/-- Witness for the amended C7: the concrete all-fail session aborts with
the message, and a concrete mixed session (frame 0 resolves, frame 1 does
not, locator total) terminates successfully with a nonempty file list. -/
theorem C7_zero_files_abort_witness :
    (fetch_files repoSrcFoo "python" "o/r" "c" locatorTotal
        [sampleFrame "/a/q.py" "m1", sampleFrame "/b/w.py" "m2"]).1
      = Except.ok (StepResult.stopAbort abortMessage)
    ∧ ∃ (files : List ResolvedFile) (ops₂ : List RemoteOp),
        fetch_files repoSrcFoo "python" "o/r" "c" locatorTotal
            [sampleFrame "/a/src/foo.py" "m1", sampleFrame "/x/zzz.py" "m2"]
          = (Except.ok (StepResult.stopSuccess
              [sampleFrame "/a/src/foo.py" "m1", sampleFrame "/x/zzz.py" "m2"] files), ops₂)
          ∧ files ≠ [] := by
  have h := C7_zero_files_abort repoSrcFoo "python" "o/r" "c" locatorTotal
    [sampleFrame "/a/q.py" "m1", sampleFrame "/b/w.py" "m2"]
    (by
      intro fr hfr
      simp only [List.mem_cons, List.not_mem_nil, or_false] at hfr
      rcases hfr with hh | hh <;> subst hh <;> rfl)
  refine ⟨h.1, h.2.1 [sampleFrame "/a/src/foo.py" "m1", sampleFrame "/x/zzz.py" "m2"]
    (fun _ _ => rfl) ?_ ?_⟩
  · intro fr hfr
    simp only [List.mem_cons, List.not_mem_nil, or_false] at hfr
    rcases hfr with hh | hh <;> subst hh
    · exact ⟨some (mkResolved repoSrcFoo "python" "o/r" "c" "src/foo.py" "X"), rfl⟩
    · exact ⟨none, rfl⟩
  · exact ⟨sampleFrame "/a/src/foo.py" "m1", List.mem_cons_self _ _,
      mkResolved repoSrcFoo "python" "o/r" "c" "src/foo.py" "X",
      [RemoteOp.treeFetch, RemoteOp.contentFetch "src/foo.py"], rfl⟩

/-! ## Claim C8: collaborator failures and the session boundary -/

/-- Counterexample to claim C8 as stated, at one concrete session: the frame
resolves, but a single method-locator failure is not caught anywhere in
`fetch_files` — the session itself raises (`Except.error`), contradicting "a
single collaborator error never causes the session itself to raise or
abort". -/
theorem C8_counterexample :
    (fetch_files repoSrcFoo "python" "o/r" "c" locatorFailing
        [sampleFrame "/a/src/foo.py" "m3"]).1 = Except.error () :=
  rfl

/-- Claim C8 amended: the repository content-fetch boundary is protected —
a `GithubException` from `get_contents` is caught at its point of use and
downgraded to a per-frame `None`, after which the loop continues with the
next frame and the op trace of the failed resolution appended; the
method-locator boundary enjoys no such protection. -/
theorem C8_content_fetch_caught (r : GithubRepo) (language repo commit : String)
    (loc : Locator) (path : String) (frame : StackFrame) (rest : List StackFrame)
    (idx : Nat) (files : List (String × ResolvedFile)) (ops : List RemoteOp)
    (h404 : getContents r (candidateAndOps r language path).1 = ContentResult.ghError)
    (hpath : frame.path = path)
    (hmiss : dictFind files path = none) :
    (resolve_file_in_github r language repo commit path).1 = Except.ok none
    ∧ fetchLoop r language repo commit loc (frame :: rest) idx files ops
        = fetchLoop r language repo commit loc rest (idx + 1) files
            (ops ++ (resolve_file_in_github r language repo commit path).2) := by
  have h1 : (resolve_file_in_github r language repo commit path).1 = Except.ok none := by
    simp only [resolve_file_in_github]
    rw [h404]
  refine ⟨h1, ?_⟩
  rcases hre : resolve_file_in_github r language repo commit path with ⟨res1, rops⟩
  rw [hre] at h1
  simp only at h1
  subst h1
  simp only [fetchLoop, hpath, hmiss]
  rw [hre]

/-- Witness for the amended C8: a 404 on the candidate path yields a skipped
frame and a continuing loop. -/
theorem C8_content_fetch_caught_witness :
    getContents repoSrcFoo (candidateAndOps repoSrcFoo "python" "/b/nope.py").1
        = ContentResult.ghError
    ∧ (resolve_file_in_github repoSrcFoo "python" "o/r" "c" "/b/nope.py").1
        = Except.ok none
    ∧ fetchLoop repoSrcFoo "python" "o/r" "c" locatorTotal
        [sampleFrame "/b/nope.py" "m1"] 0 [] []
        = fetchLoop repoSrcFoo "python" "o/r" "c" locatorTotal [] 1 []
            ([] ++ (resolve_file_in_github repoSrcFoo "python" "o/r" "c" "/b/nope.py").2) := by
  have h := C8_content_fetch_caught repoSrcFoo "python" "o/r" "c" locatorTotal
    "/b/nope.py" (sampleFrame "/b/nope.py" "m1") [] 0 [] [] rfl rfl rfl
  exact ⟨rfl, h.1, h.2⟩

/-! ## Claim C9: tree-fetch frequency -/

/-- Counterexample to claim C9 as stated, at one concrete session: two
path-style frames with distinct raw paths trigger two non-recursive tree
fetches in one session, because the tree is fetched inside every resolution
call rather than once per session. -/
theorem C9_counterexample :
    ((fetch_files repoSrcFoo "python" "o/r" "c" locatorTotal
        [sampleFrame "/a/src/foo.py" "m1", sampleFrame "/x/y/render.py" "m2"]).2).count
      RemoteOp.treeFetch = 2 := by
  decide

/-- Claim C9 amended: the non-recursive top-level tree listing is fetched
exactly once per path-style resolution call — hence at most once per frame,
bounded by the number of frames per session, but not at most once per
session. -/
theorem C9_tree_fetch_per_call (r : GithubRepo) (language repo commit path : String)
    (hlang : classpathLangs.contains language = false) :
    ((resolve_file_in_github r language repo commit path).2).count RemoteOp.treeFetch = 1
    ∧ ∀ (loc : Locator) (frames : List StackFrame),
        ((fetch_files r language repo commit loc frames).2).count RemoteOp.treeFetch
          ≤ frames.length := by
  constructor
  · rw [resolve_ops_eq]
    simp only [candidateAndOps]
    have hmem : ¬ language ∈ classpathLangs := by simpa using hlang
    simp [hmem, List.count_append, List.count_cons]
  · intro loc frames
    have h := fetchLoop_tree_count r language repo commit loc frames 0 [] []
    simp only [fetch_files]
    rcases hl : fetchLoop r language repo commit loc frames 0 [] [] with ⟨res0, ops0⟩
    rw [hl] at h
    simp only [List.count_nil, Nat.zero_add] at h
    cases res0 with
    | error e => simpa using h
    | ok l => by_cases he : l.isEmpty <;> simp [he] <;> simpa using h

/-- Witness for the amended C9: one path-style resolution fetches the tree
once, and a concrete two-frame session is bounded by two. -/
theorem C9_tree_fetch_witness :
    classpathLangs.contains "python" = false
    ∧ ((resolve_file_in_github repoSrcFoo "python" "o/r" "c" "/a/src/foo.py").2).count
        RemoteOp.treeFetch = 1
    ∧ ((fetch_files repoSrcFoo "python" "o/r" "c" locatorTotal
          [sampleFrame "/a/src/foo.py" "m1", sampleFrame "/x/y/render.py" "m2"]).2).count
        RemoteOp.treeFetch
        ≤ [sampleFrame "/a/src/foo.py" "m1", sampleFrame "/x/y/render.py" "m2"].length := by
  refine ⟨by decide, ?_, ?_⟩
  · exact (C9_tree_fetch_per_call repoSrcFoo "python" "o/r" "c" "/a/src/foo.py"
      (by decide)).1
  · exact (C9_tree_fetch_per_call repoSrcFoo "python" "o/r" "c" "/a/src/foo.py"
      (by decide)).2 locatorTotal _

/-! ## Frame-index accounting for claim C5 -/

lemma idCount_nil (i : Nat) : idCount [] i = 0 := rfl

lemma idCount_cons (k : String) (v : ResolvedFile) (rest : List (String × ResolvedFile))
    (i : Nat) : idCount ((k, v) :: rest) i = (frameIds v).count i + idCount rest i := by
  simp [idCount]

/-- Appending the snippet tagged `idx` appends `idx` to the file's tagged
frame indices. -/
lemma frameIds_appendSnippet (f : ResolvedFile) (idx : Nat) (off : FileOffset) :
    frameIds (appendSnippet f idx off) = frameIds f ++ [idx] := by
  simp [frameIds, appendSnippet, List.filterMap_append]

/-- Updating an existing key exchanges that entry's contribution to the
session-wide tag count. -/
lemma idCount_dictInsert_found :
    ∀ (files : List (String × ResolvedFile)) (k : String) (g v : ResolvedFile) (i : Nat),
      dictFind files k = some g →
      idCount (dictInsert files k v) i + (frameIds g).count i
        = idCount files i + (frameIds v).count i
  | [], k, g, v, i, h => by simp [dictFind] at h
  | (k', w) :: rest, k, g, v, i, h => by
      by_cases hk : k' = k
      · subst hk
        simp only [dictFind, eq_self_iff_true, if_true, Option.some.injEq] at h
        subst h
        simp only [dictInsert, eq_self_iff_true, if_true, idCount_cons]
        omega
      · simp only [dictFind, hk, if_false] at h
        simp only [dictInsert, hk, if_false, idCount_cons]
        have ih := idCount_dictInsert_found rest k g v i h
        omega

/-- Inserting a fresh key adds that entry's contribution to the session-wide
tag count. -/
lemma idCount_dictInsert_notfound :
    ∀ (files : List (String × ResolvedFile)) (k : String) (v : ResolvedFile) (i : Nat),
      dictFind files k = none →
      idCount (dictInsert files k v) i = idCount files i + (frameIds v).count i
  | [], k, v, i, _ => by simp [dictInsert, idCount_cons, idCount]
  | (k', w) :: rest, k, v, i, h => by
      by_cases hk : k' = k
      · simp [dictFind, hk] at h
      · simp only [dictFind, hk, if_false] at h
        simp only [dictInsert, hk, if_false, idCount_cons]
        have ih := idCount_dictInsert_notfound rest k v i h
        omega

/-- Counting the tag `i` in the singleton list `[idx]`. -/
lemma count_singleton_nat (idx i : Nat) :
    ([idx] : List Nat).count i = if idx = i then 1 else 0 := by
  by_cases hi : idx = i
  · subst hi
    simp
  · simp [List.count_cons, hi]

/-- Loop invariant for snippet frame tags: starting from a dict whose tags
are all distinct and all below the running index, a successful loop run ends
with all tags still distinct and all below the final index. -/
lemma fetchLoop_id_invariant (r : GithubRepo) (language repo commit : String)
    (loc : Locator) :
    ∀ (frames : List StackFrame) (idx : Nat) (files : List (String × ResolvedFile))
      (ops : List RemoteOp) (files' : List (String × ResolvedFile)) (ops' : List RemoteOp),
      fetchLoop r language repo commit loc frames idx files ops = (Except.ok files', ops') →
      (∀ i, idCount files i ≤ 1) →
      (∀ i, idx ≤ i → idCount files i = 0) →
      (∀ i, idCount files' i ≤ 1) ∧ (∀ i, idx + frames.length ≤ i → idCount files' i = 0)
  | [], idx, files, ops, files', ops', heq, h1, h2 => by
      simp only [fetchLoop, Prod.mk.injEq] at heq
      obtain ⟨h3, _⟩ := heq
      injection h3 with h5
      subst h5
      exact ⟨h1, fun i hi => h2 i (by omega)⟩
  | frame :: rest, idx, files, ops, files', ops', heq, h1, h2 => by
      rcases hf : dictFind files frame.path with _ | g
      · rcases hre : resolve_file_in_github r language repo commit frame.path
          with ⟨res1, rops⟩
        cases res1 with
        | error e =>
            rw [fetchLoop_step_miss_error r language repo commit loc frame rest idx
              files ops e rops hf hre] at heq
            simp at heq
        | ok o =>
            cases o with
            | none =>
                rw [fetchLoop_step_miss_none r language repo commit loc frame rest idx
                  files ops rops hf hre] at heq
                have ih := fetchLoop_id_invariant r language repo commit loc rest (idx + 1)
                  files (ops ++ rops) files' ops' heq h1
                  (fun i hi => h2 i (by omega))
                exact ⟨ih.1, fun i hi => ih.2 i (by simp only [List.length_cons] at hi; omega)⟩
            | some f =>
                cases hl : loc f.content frame.method with
                | none =>
                    rw [fetchLoop_step_miss_locfail r language repo commit loc frame rest idx
                      files ops f rops hf hre hl] at heq
                    simp at heq
                | some off =>
                    rw [fetchLoop_step_miss_ok r language repo commit loc frame rest idx
                      files ops f rops off hf hre hl] at heq
                    have hids : frameIds f = [] := by
                      simp [frameIds,
                        resolve_ok_snips r language repo commit frame.path f (by rw [hre])]
                    have hcount : ∀ i,
                        idCount (dictInsert files frame.path (appendSnippet f idx off)) i
                          = idCount files i + if idx = i then 1 else 0 := by
                      intro i
                      rw [idCount_dictInsert_notfound files frame.path _ i hf,
                        frameIds_appendSnippet, hids, List.nil_append, count_singleton_nat]
                    have ih := fetchLoop_id_invariant r language repo commit loc rest (idx + 1)
                      (dictInsert files frame.path (appendSnippet f idx off)) (ops ++ rops)
                      files' ops' heq
                      (fun i => by
                        rw [hcount i]
                        by_cases hi : idx = i
                        · subst hi
                          rw [h2 idx (by omega)]
                          simp
                        · simp [hi]
                          exact h1 i)
                      (fun i hi => by
                        rw [hcount i, h2 i (by omega), if_neg (by omega)])
                    exact ⟨ih.1, fun i hi =>
                      ih.2 i (by simp only [List.length_cons] at hi; omega)⟩
      · cases hl : loc g.content frame.method with
        | none =>
            rw [fetchLoop_step_hit_locfail r language repo commit loc frame rest idx
              files ops g hf hl] at heq
            simp at heq
        | some off =>
            rw [fetchLoop_step_hit r language repo commit loc frame rest idx
              files ops g off hf hl] at heq
            have hfound := idCount_dictInsert_found files frame.path g
              (appendSnippet g idx off)
            have hcount : ∀ i,
                idCount (dictInsert files frame.path (appendSnippet g idx off)) i
                  = idCount files i + if idx = i then 1 else 0 := by
              intro i
              have h := hfound i hf
              rw [frameIds_appendSnippet, List.count_append, count_singleton_nat] at h
              omega
            have ih := fetchLoop_id_invariant r language repo commit loc rest (idx + 1)
              (dictInsert files frame.path (appendSnippet g idx off)) ops
              files' ops' heq
              (fun i => by
                rw [hcount i]
                by_cases hi : idx = i
                · subst hi
                  rw [h2 idx (by omega)]
                  simp
                · simp [hi]
                  exact h1 i)
              (fun i hi => by
                rw [hcount i, h2 i (by omega), if_neg (by omega)])
            exact ⟨ih.1, fun i hi => ih.2 i (by simp only [List.length_cons] at hi; omega)⟩

/-- Tag counts of a success result are the dict's tag counts. -/
lemma resultIdCount_success (frames : List StackFrame)
    (files : List (String × ResolvedFile)) (i : Nat) :
    resultIdCount (StepResult.stopSuccess frames (files.map Prod.snd)) i
      = idCount files i := by
  simp only [resultIdCount, idCount, List.map_map]
  rfl

/-! ## Claim C5: frame-index partition of the output -/

/-- Counterexample to claim C5 as stated, at one concrete session: frame 0
resolves, frame 1 does not.  The session succeeds, yet the output tags no
snippet with index 1 and the result type records no
`unresolved_frame_indices` anywhere (neither `StepResult` constructor has
such a component) — frame 1 is silently dropped rather than partitioned. -/
theorem C5_counterexample :
    resultIdCount (resultOf (fetch_files repoSrcFoo "python" "o/r" "c" locatorTotal
        [sampleFrame "/a/src/foo.py" "m1", sampleFrame "/x/zzz.py" "m2"]).1) 1 = 0
    ∧ resultOf (fetch_files repoSrcFoo "python" "o/r" "c" locatorTotal
        [sampleFrame "/a/src/foo.py" "m1", sampleFrame "/x/zzz.py" "m2"]).1
        ≠ StepResult.stopAbort abortMessage
    ∧ resultIdCount (resultOf (fetch_files repoSrcFoo "python" "o/r" "c" locatorTotal
        [sampleFrame "/a/src/foo.py" "m1", sampleFrame "/x/zzz.py" "m2"]).1) 0 = 1 :=
  ⟨rfl, by decide, rfl⟩

/-- Claim C5 amended: the half of the claim about tagged indices holds — in
any session output, each frame index tags at most one snippet across all
resolved files, and no tagged index is outside the input range (so every
tagged index corresponds to exactly one input frame).  The partition half
fails: frames that do not resolve appear nowhere, since the output carries no
`unresolved_frame_indices`. -/
theorem C5_frame_ids_partition (r : GithubRepo) (language repo commit : String)
    (loc : Locator) (frames : List StackFrame) (res : StepResult) (ops : List RemoteOp)
    (h : fetch_files r language repo commit loc frames = (Except.ok res, ops)) :
    ∀ i, resultIdCount res i ≤ 1 ∧ (frames.length ≤ i → resultIdCount res i = 0) := by
  intro i
  simp only [fetch_files] at h
  rcases hl : fetchLoop r language repo commit loc frames 0 [] [] with ⟨res0, ops0⟩
  rw [hl] at h
  cases res0 with
  | error e => simp at h
  | ok l =>
      have hinv := fetchLoop_id_invariant r language repo commit loc frames 0 [] [] l ops0 hl
        (fun j => by simp [idCount_nil]) (fun j _ => idCount_nil j)
      by_cases he : l.isEmpty
      · simp only [he, if_true, Prod.mk.injEq] at h
        injection h.1 with h3
        rw [← h3]
        exact ⟨by simp [resultIdCount], fun _ => by simp [resultIdCount]⟩
      · simp only [he, if_false, Bool.false_eq_true, Prod.mk.injEq] at h
        injection h.1 with h3
        rw [← h3, resultIdCount_success]
        exact ⟨hinv.1 i, fun hi => hinv.2 i (by omega)⟩

/-- Witness for the amended C5 at a one-frame session, checked at index 5
(outside the input range). -/
theorem C5_frame_ids_witness :
    fetch_files repoSrcFoo "python" "o/r" "c" locatorTotal
        [sampleFrame "/a/src/foo.py" "m1"]
      = (Except.ok (StepResult.stopSuccess [sampleFrame "/a/src/foo.py" "m1"]
          [{ mkResolved repoSrcFoo "python" "o/r" "c" "src/foo.py" "X" with
              snippet_offsets := [{ start := 1, end_ := 2, frame_id := some 0 }] }]),
         [RemoteOp.treeFetch, RemoteOp.contentFetch "src/foo.py"])
    ∧ resultIdCount (StepResult.stopSuccess [sampleFrame "/a/src/foo.py" "m1"]
          [{ mkResolved repoSrcFoo "python" "o/r" "c" "src/foo.py" "X" with
              snippet_offsets := [{ start := 1, end_ := 2, frame_id := some 0 }] }]) 5 ≤ 1
    ∧ resultIdCount (StepResult.stopSuccess [sampleFrame "/a/src/foo.py" "m1"]
          [{ mkResolved repoSrcFoo "python" "o/r" "c" "src/foo.py" "X" with
              snippet_offsets := [{ start := 1, end_ := 2, frame_id := some 0 }] }]) 5 = 0 := by
  have h := C5_frame_ids_partition repoSrcFoo "python" "o/r" "c" locatorTotal
    [sampleFrame "/a/src/foo.py" "m1"]
    (StepResult.stopSuccess [sampleFrame "/a/src/foo.py" "m1"]
      [{ mkResolved repoSrcFoo "python" "o/r" "c" "src/foo.py" "X" with
          snippet_offsets := [{ start := 1, end_ := 2, frame_id := some 0 }] }])
    [RemoteOp.treeFetch, RemoteOp.contentFetch "src/foo.py"] rfl 5
  exact ⟨rfl, h.1, h.2 (by decide)⟩

end BugBuster
